import Mathlib

/-!
# Docker IP Retrieval — verification of the container-status pipeline

Shallow embedding of the core of the Docker IP Retrieval CLI
(`docker-ip-retrieval.js` together with `src/utils.js`).  External calls
(the engine inspect/exec API, the geolocation HTTP fetch) are modelled by
per-container oracles (`ContainerEnv`): each field holds the outcome the
external world would return for that call.  Every function below is a
direct transcription of the corresponding JavaScript function; each also
returns the list of external calls it performed, so that short-circuit
properties ("no exec call is made") are provable.
-/

namespace DockerIP

/-! ## JavaScript string primitives used by the source -/

/-- A character in the printable ASCII range, i.e. matching the class
`[ -~]` used by the output-cleaning regex in `runCommand`. -/
def isPrintableAscii (c : Char) : Bool := 32 ≤ c.toNat && c.toNat ≤ 126

/-- `output.replace(/[^ -~]+/g, "")`: drop every character outside the
printable ASCII range. -/
def stripNonPrintable (s : String) : String := String.mk (s.data.filter isPrintableAscii)

/-- Whitespace characters removed by JavaScript `String.prototype.trim`
(the ASCII ones; the source only ever trims ASCII-filtered text). -/
def isJsSpace (c : Char) : Bool :=
  c = ' ' || c = '\t' || c = '\n' || c = '\r' || c.toNat = 11 || c.toNat = 12

/-- JavaScript `s.trim()`. -/
def jsTrim (s : String) : String :=
  String.mk (((s.data.dropWhile isJsSpace).reverse.dropWhile isJsSpace).reverse)

/-- The post-processing `runCommand` applies to raw exec output:
`output.replace(/[^ -~]+/g, "").trim()`. -/
def cleanOutput (s : String) : String := jsTrim (stripNonPrintable s)

/-- Remove the first occurrence of a slash from a character list. -/
def dropFirstSlash : List Char → List Char
  | [] => []
  | c :: cs => if c = '/' then cs else c :: dropFirstSlash cs

/-- JavaScript `s.replace("/", "")`: only the FIRST occurrence is removed. -/
def jsReplaceFirstSlash (s : String) : String := String.mk (dropFirstSlash s.data)

/-- JavaScript `s.toLowerCase()` (ASCII case mapping suffices for the
strings the source compares). -/
def jsToLower (s : String) : String := String.mk (s.data.map Char.toLower)

/-- JavaScript `s.includes(pat)`: substring containment. -/
def jsIncludes (s pat : String) : Bool := decide (List.IsInfix pat.data s.data)

/-- JavaScript `s.split(" ")`. -/
def jsSplitOnSpace (s : String) : List String := s.splitOn " "

/-- The acceptance test `/^[0-9.]+$/.test(s)` used by `getPublicIP`:
`s` is nonempty and consists solely of decimal digits and dots.  This is
the source's "structural IPv4 check". -/
def structuralIPv4 (s : String) : Bool :=
  !s.isEmpty && s.data.all (fun c => c.isDigit || c = '.')

/-! ## Data model -/

/-- One host binding of a published port, as found in
`NetworkSettings.Ports`: `{ HostIp, HostPort }`. -/
structure HostBinding where
  HostIp : String
  HostPort : String
deriving DecidableEq, Repr

/-- The `State` object of a container inspection: the `Running` boolean
and the `Status` string are separate fields, exactly as in the engine's
response. -/
structure ContainerState where
  Running : Bool
  Status : String
deriving DecidableEq, Repr

/-- The part of an engine `inspect` response the source reads.
`Name = ""` models an absent/empty name (falsy in JavaScript);
`Os = none` models an absent OS hint; `Ports` models
`NetworkSettings.Ports`, where a `none` binding list models `null`. -/
structure InspectData where
  Name : String
  State : ContainerState
  Os : Option String
  Ports : List (String × Option (List HostBinding))
deriving DecidableEq, Repr

/-- The JSON body returned by the geolocation service. -/
structure GeoResponse where
  status : String
  country : String
  city : String
deriving DecidableEq, Repr

/-- The display unit: one row of the results table. -/
structure StatusRow where
  name : String
  ipOrStatus : String
  location : String
deriving DecidableEq, Repr

/-- External calls a pipeline can make; `exec` records the chosen
command vector. -/
inductive Call where
  | inspect
  | exec (cmd : List String)
  | geoFetch
deriving DecidableEq, Repr

/-- The external world as seen by one container's pipeline: the outcome
of an engine inspection, of the in-container exec (raw output text and
exit code), and of the geolocation fetch.  `Except.error` models a
thrown/rejected call, carrying the underlying error message. -/
structure ContainerEnv where
  inspectResult : Except String InspectData
  execResult : Except String (String × Int)
  geoResult : Except String GeoResponse

/-! ## The pipeline functions (from `src/utils.js`) -/

/-- The command string built in `getPublicIP`. -/
def curlCmdStr : String := "curl -s https://api.ipify.org"

/-- `runCommand(containerId, command)`: guard the id, run the exec,
clean the collected output, return output and exit code; wrap any
engine error.  The oracle `env.execResult` supplies the raw outcome. -/
def runCommand (containerId : String) (cmd : List String) (env : ContainerEnv) :
    Except String (String × Int) × List Call :=
  if containerId = "" then
    (.error "Invalid containerId provided to runCommand", [])
  else
    match env.execResult with
    | .error e =>
      (.error ("Failed to run command in container " ++ containerId ++ ": " ++ e), [.exec cmd])
    | .ok (raw, code) => (.ok (cleanOutput raw, code), [.exec cmd])

/-- `getContainerOsType(containerId)`: inspect the container and return
`containerData?.Os?.toLowerCase?.() || "linux"`; a failed inspect is
wrapped and re-thrown (no default on failure). -/
def getContainerOsType (containerId : String) (env : ContainerEnv) :
    Except String String × List Call :=
  if containerId = "" then
    (.error "Invalid containerId provided to getContainerOsType", [])
  else
    match env.inspectResult with
    | .error e =>
      (.error ("Failed to get OS type for container " ++ containerId ++ ": " ++ e), [.inspect])
    | .ok d =>
      let low := match d.Os with
        | none => ""
        | some os => jsToLower os
      (.ok (if low = "" then "linux" else low), [.inspect])

/-- The function returned by `getPublicIP(runCommand, getContainerOsType)`,
instantiated as in `getContainerStatus` with the two real helpers:
choose the command vector by OS kind, run it, accept the trimmed output
as the IP only when the exit code is 0 and the structural IPv4 test
passes, otherwise `none`; exceptions from the helpers propagate. -/
def getPublicIP (containerId : String) (env : ContainerEnv) :
    Except String (Option String) × List Call :=
  if containerId = "" then
    (.error "Invalid containerId provided to getPublicIP", [])
  else
    match getContainerOsType containerId env with
    | (.error e, t) => (.error e, t)
    | (.ok osType, t) =>
      let cmd := if jsIncludes osType "win" then jsSplitOnSpace curlCmdStr
                 else ["sh", "-c", curlCmdStr]
      match runCommand containerId cmd env with
      | (.error e, t2) => (.error e, t ++ t2)
      | (.ok (output, exitCode), t2) =>
        (.ok (if exitCode == 0 && structuralIPv4 (jsTrim output) then some (jsTrim output)
              else none),
         t ++ t2)

/-- `getLocation(ip)`: guard the ip, fetch the geolocation JSON; a
`status == "fail"` body yields `"Unknown"`, any transport/parse error is
caught and yields `"Lookup Failed"`, any other body yields
`country ++ ", " ++ city` verbatim. -/
def getLocation (ip : String) (geo : Except String GeoResponse) :
    Except String String × List Call :=
  if ip = "" then
    (.error "Invalid IP address provided to getLocation", [])
  else
    match geo with
    | .error _ => (.ok "Lookup Failed", [.geoFetch])
    | .ok r =>
      (.ok (if r.status = "fail" then "Unknown" else r.country ++ ", " ++ r.city), [.geoFetch])

/-- `getContainerStatus(containerId)`: inspect, short-circuit when not
running, otherwise resolve the public IP and (when an IP was accepted)
its location; any error thrown inside is caught and re-thrown wrapped —
the function produces no row in that case. -/
def getContainerStatus (containerId : String) (env : ContainerEnv) :
    Except String StatusRow × List Call :=
  if containerId = "" then
    (.error "Invalid containerId provided to getContainerStatus", [])
  else
    match env.inspectResult with
    | .error e =>
      (.error ("Failed to get status for container " ++ containerId ++ ": " ++ e), [.inspect])
    | .ok d =>
      let name := if d.Name = "" then "Unknown Container" else jsReplaceFirstSlash d.Name
      if d.State.Running = false then
        (.ok ⟨name, "Container " ++ d.State.Status, "Unknown"⟩, [.inspect])
      else
        match getPublicIP containerId env with
        | (.error e, t) =>
          (.error ("Failed to get status for container " ++ containerId ++ ": " ++ e),
           .inspect :: t)
        | (.ok none, t) => (.ok ⟨name, "Retrieval failed", "Unknown"⟩, .inspect :: t)
        | (.ok (some ip), t) =>
          match getLocation ip env.geoResult with
          | (.error e, t2) =>
            (.error ("Failed to get status for container " ++ containerId ++ ": " ++ e),
             .inspect :: (t ++ t2))
          | (.ok loc, t2) => (.ok ⟨name, ip, loc⟩, .inspect :: (t ++ t2))

/-! ## Batch mode (`docker-ip-retrieval.js`) -/

/-- `Promise.all` over already-computed per-pipeline outcomes: the list
of rows when every pipeline succeeded, otherwise the first rejection. -/
def collectAll : List (Except String StatusRow) → Except String (List StatusRow)
  | [] => .ok []
  | .error e :: _ => .error e
  | .ok r :: rest =>
    match collectAll rest with
    | .error e => .error e
    | .ok rs => .ok (r :: rs)

/-- The `"All"` branch of `getSelectedContainerResults`:
`Promise.all(Object.values(containerMap).map(getContainerStatus))`.
`world` maps each container id to its external environment. -/
def getSelectedContainerResultsAll (containerMap : List (String × String))
    (world : String → ContainerEnv) : Except String (List StatusRow) :=
  collectAll ((containerMap.map Prod.snd).map (fun id => (getContainerStatus id (world id)).1))

/-! ## Container listing and the name→id map -/

/-- One element of the engine's container listing, as read by
`getContainerMap`. -/
structure ContainerListing where
  Names : List String
  Id : String
deriving DecidableEq, Repr

/-- `Names?.[0]?.replace("/", "") || "Unknown"`. -/
def normalizeName (names : List String) : String :=
  match names.head? with
  | none => "Unknown"
  | some n =>
    let n2 := jsReplaceFirstSlash n
    if n2 = "" then "Unknown" else n2

/-- One step of JavaScript object construction `obj[k] = v`: an existing
key keeps its position but receives the new value; a new key is appended. -/
def insertEntry (m : List (String × String)) (k v : String) : List (String × String) :=
  if m.any (fun p => p.1 == k) then
    m.map (fun p => if p.1 == k then (k, v) else p)
  else m ++ [(k, v)]

/-- `Object.fromEntries`: later entries with the same key overwrite
earlier ones; key order is first-occurrence order. -/
def jsFromEntries (l : List (String × String)) : List (String × String) :=
  l.foldl (fun m p => insertEntry m p.1 p.2) []

/-- `getContainerMap()`: the name→id object built from the listing. -/
def getContainerMap (containers : List ContainerListing) : List (String × String) :=
  jsFromEntries (containers.map (fun c => (normalizeName c.Names, c.Id)))

/-! ## Ports mode -/

/-- The arrow-function body of `getContainerPorts`' `.map`: `null` or an
empty binding array maps to `null`, otherwise the bindings render as
`HostIp:HostPort->containerPort` joined by `", "`. -/
def formatPortEntry (containerPort : String) (bindings : Option (List HostBinding)) :
    Option String :=
  match bindings with
  | none => none
  | some [] => none
  | some bs =>
    some (String.intercalate ", "
      (bs.map (fun b => b.HostIp ++ ":" ++ b.HostPort ++ "->" ++ containerPort)))

/-- `.filter(Boolean)` over the mapped entries: drop `null` and `""`. -/
def jsFilterBoolean (l : List (Option String)) : List String :=
  l.filterMap (fun o =>
    match o with
    | none => none
    | some s => if s = "" then none else some s)

/-- `getContainerPorts(containerId)`: guard the id, inspect, render the
port bindings; a failed inspect is wrapped and re-thrown. -/
def getContainerPorts (containerId : String) (inspectResult : Except String InspectData) :
    Except String (List String) :=
  if containerId = "" then
    .error "Invalid containerId provided to getContainerPorts"
  else
    match inspectResult with
    | .error e => .error ("Failed to get ports for container " ++ containerId ++ ": " ++ e)
    | .ok d => .ok (jsFilterBoolean (d.Ports.map (fun p => formatPortEntry p.1 p.2)))

/-- The loop body of `listContainerPorts`: one row per map entry; a
per-container error is caught and rendered inline in that row. -/
def portRow (world : String → Except String InspectData) (entry : String × String) :
    String × String :=
  match getContainerPorts entry.2 (world entry.2) with
  | .error e => (entry.1, "Error retrieving ports (" ++ e ++ ")")
  | .ok ports =>
    (entry.1, if ports.isEmpty then "No ports exposed" else String.intercalate "\n" ports)

/-- `listContainerPorts(containerMap)`: the rows pushed to the ports
table, in map-entry order. -/
def listContainerPorts (entries : List (String × String))
    (world : String → Except String InspectData) : List (String × String) :=
  entries.map (portRow world)

/-! ## Concrete environments used by witnesses and counterexamples -/

/-- A healthy running container: exec echoes a plausible IP, geolocation
answers with a success body. -/
def envWeb : ContainerEnv :=
  ⟨Except.ok ⟨"/web", ⟨true, "running"⟩, some "linux", []⟩,
   Except.ok ("203.0.113.7", 0),
   Except.ok ⟨"success", "US", "Ashburn"⟩⟩

/-- A stopped container. -/
def envDb : ContainerEnv :=
  ⟨Except.ok ⟨"/db", ⟨false, "exited"⟩, none, []⟩,
   Except.ok ("", 0),
   Except.ok ⟨"success", "US", "Ashburn"⟩⟩

/-- A running container whose exec call throws. -/
def envBoom : ContainerEnv :=
  ⟨Except.ok ⟨"/b", ⟨true, "running"⟩, some "linux", []⟩,
   Except.error "boom",
   Except.ok ⟨"success", "US", "Ashburn"⟩⟩

/-- A container whose inspect call fails. -/
def envGone : ContainerEnv :=
  ⟨Except.error "no such container",
   Except.ok ("", 0),
   Except.ok ⟨"success", "US", "Ashburn"⟩⟩

/-- A running container whose exec produces a two-group dotted string. -/
def envDotted : ContainerEnv :=
  ⟨Except.ok ⟨"/api", ⟨true, "running"⟩, some "linux", []⟩,
   Except.ok ("1.2", 0),
   Except.ok ⟨"success", "X", "Y"⟩⟩

/-- A running container whose exec exits 0 but prints an error text. -/
def envApiRefused : ContainerEnv :=
  ⟨Except.ok ⟨"/api", ⟨true, "running"⟩, some "linux", []⟩,
   Except.ok ("connection refused", 0),
   Except.ok ⟨"success", "X", "Y"⟩⟩

/-- A running Windows container. -/
def envWin : ContainerEnv :=
  ⟨Except.ok ⟨"/win", ⟨true, "running"⟩, some "Windows Server", []⟩,
   Except.ok ("203.0.113.7", 0),
   Except.ok ⟨"success", "US", "Ashburn"⟩⟩

/-- A running container with no OS hint in its inspect data. -/
def envNoOs : ContainerEnv :=
  ⟨Except.ok ⟨"/tux", ⟨true, "running"⟩, none, []⟩,
   Except.ok ("203.0.113.7", 0),
   Except.ok ⟨"success", "US", "Ashburn"⟩⟩

/-! ## General lemmas -/

theorem structuralIPv4_ne_empty (s : String) (h : structuralIPv4 s = true) : s ≠ "" := by
  intro he
  subst he
  exact absurd h (by decide)

theorem collectAll_map_ok (rs : List StatusRow) : collectAll (rs.map Except.ok) = Except.ok rs := by
  induction rs with
  | nil => rfl
  | cons r rs ih => simp [collectAll, ih]

theorem collectAll_ok_imp (l : List (Except String StatusRow)) (rs : List StatusRow)
    (h : collectAll l = Except.ok rs) : l = rs.map Except.ok := by
  induction l generalizing rs with
  | nil =>
    simp [collectAll] at h
    subst h
    rfl
  | cons x xs ih =>
    cases x with
    | error e => simp [collectAll] at h
    | ok r =>
      cases hc : collectAll xs with
      | error e => simp [collectAll, hc] at h
      | ok rs2 =>
        simp only [collectAll, hc] at h
        cases h2 : rs with
        | nil => rw [h2] at h; simp at h
        | cons a as =>
          rw [h2] at h
          simp only [Except.ok.injEq, List.cons.injEq] at h
          obtain ⟨ha, has⟩ := h
          subst ha
          subst has
          simp [List.map_cons, ih rs2 hc]

/-! ## Claim C4 -/

/-- Claim C4: for every container whose inspected state is not running,
the resolved row is exactly (normalized name, "Container " ++ status,
"Unknown"), and the pipeline performs no exec and no geolocation call
(its whole external trace is the single inspect call). -/
theorem claim_C4 (containerId : String) (env : ContainerEnv) (d : InspectData)
    (hid : containerId ≠ "") (hins : env.inspectResult = Except.ok d)
    (hrun : d.State.Running = false) :
    getContainerStatus containerId env =
      (Except.ok ⟨if d.Name = "" then "Unknown Container" else jsReplaceFirstSlash d.Name,
                  "Container " ++ d.State.Status, "Unknown"⟩,
       [Call.inspect]) := by
  simp [getContainerStatus, hid, hins, hrun]

/-- Witness for C4: the exited container "db" yields the short-circuit
row and only an inspect call. -/
theorem claim_C4_witness :
    getContainerStatus "dbid" envDb =
      (Except.ok ⟨"db", "Container exited", "Unknown"⟩, [Call.inspect]) := by
  have h := claim_C4 "dbid" envDb ⟨"/db", ⟨false, "exited"⟩, none, []⟩ (by decide) rfl rfl
  exact h

/-! ## Claim C5 -/

/-- Claim C5: for every running container where the in-container command
exits non-zero or the cleaned-and-trimmed output fails the structural
digit-dot pattern, the resolved IP is null and the row is
(name, "Retrieval failed", "Unknown"). -/
theorem claim_C5 (containerId : String) (env : ContainerEnv) (d : InspectData)
    (raw : String) (code : Int) (hid : containerId ≠ "")
    (hins : env.inspectResult = Except.ok d) (hrun : d.State.Running = true)
    (hexec : env.execResult = Except.ok (raw, code))
    (hbad : code ≠ 0 ∨ structuralIPv4 (jsTrim (cleanOutput raw)) = false) :
    (getContainerStatus containerId env).1 =
      Except.ok ⟨if d.Name = "" then "Unknown Container" else jsReplaceFirstSlash d.Name,
                 "Retrieval failed", "Unknown"⟩ := by
  have hcond : (code == 0 && structuralIPv4 (jsTrim (cleanOutput raw))) = false := by
    rcases hbad with h | h
    · simp [h]
    · simp [h]
  simp [getContainerStatus, getPublicIP, getContainerOsType, runCommand, hid, hins, hrun,
    hexec, hcond]

/-- Witness for C5: exec succeeds with exit code 0 but output
"connection refused", which fails the pattern, so the row reports
"Retrieval failed". -/
theorem claim_C5_witness :
    (getContainerStatus "api" envApiRefused).1 =
      Except.ok ⟨"api", "Retrieval failed", "Unknown"⟩ := by
  have h := claim_C5 "api" envApiRefused ⟨"/api", ⟨true, "running"⟩, some "linux", []⟩
    "connection refused" 0 (by decide) rfl rfl rfl (Or.inr (by decide))
  exact h

/-! ## Claim C6 -/

/-- Claim C6: for every nonempty IP given to the geolocation resolver, a
service body with status "fail" yields "Unknown"; a transport or parse
error yields "Lookup Failed" and no exception escapes; any other body
yields country ++ ", " ++ city verbatim (empty fields included). -/
theorem claim_C6 (ip : String) (geo : Except String GeoResponse) (hip : ip ≠ "") :
    (∀ e, geo = Except.error e → getLocation ip geo = (Except.ok "Lookup Failed", [Call.geoFetch])) ∧
    (∀ r, geo = Except.ok r → r.status = "fail" →
        getLocation ip geo = (Except.ok "Unknown", [Call.geoFetch])) ∧
    (∀ r, geo = Except.ok r → r.status ≠ "fail" →
        getLocation ip geo = (Except.ok (r.country ++ ", " ++ r.city), [Call.geoFetch])) ∧
    (∀ e, (getLocation ip geo).1 ≠ Except.error e) := by
  refine ⟨?_, ?_, ?_, ?_⟩
  · intro e he
    simp [getLocation, hip, he]
  · intro r hr hf
    simp [getLocation, hip, hr, hf]
  · intro r hr hf
    simp [getLocation, hip, hr, hf]
  · intro e
    cases geo with
    | error e2 => simp [getLocation, hip]
    | ok r =>
      simp only [getLocation, hip, if_false]
      split <;> simp

/-- Witness for C6: a success body with empty country and city yields
the verbatim ", "; a fail body yields "Unknown"; a transport error
yields "Lookup Failed". -/
theorem claim_C6_witness :
    getLocation "8.8.8.8" (Except.ok ⟨"success", "", ""⟩) = (Except.ok ", ", [Call.geoFetch]) ∧
    getLocation "10.0.0.1" (Except.ok ⟨"fail", "", ""⟩) = (Except.ok "Unknown", [Call.geoFetch]) ∧
    getLocation "8.8.4.4" (Except.error "timeout") = (Except.ok "Lookup Failed", [Call.geoFetch]) := by
  refine ⟨?_, ?_, ?_⟩
  · exact (claim_C6 "8.8.8.8" (Except.ok ⟨"success", "", ""⟩) (by decide)).2.2.1
      ⟨"success", "", ""⟩ rfl (by decide)
  · exact (claim_C6 "10.0.0.1" (Except.ok ⟨"fail", "", ""⟩) (by decide)).2.1
      ⟨"fail", "", ""⟩ rfl rfl
  · exact (claim_C6 "8.8.4.4" (Except.error "timeout") (by decide)).1 "timeout" rfl

/-! ## Claim C1 -/

/-- The batch world used to exhibit the missing isolation: container id
"b" is the one whose exec call throws. -/
def worldC1 : String → ContainerEnv := fun id => if id = "b" then envBoom else envWeb

/-- Counterexample to C1: pipelines "a" and "c" each succeed on their
own, but with pipeline "b"'s exec call throwing, the batch result is a
single rejection — not three rows. -/
theorem claim_C1_counterexample :
    (getContainerStatus "a" envWeb).1 = Except.ok ⟨"web", "203.0.113.7", "US, Ashburn"⟩ ∧
    (getContainerStatus "c" envWeb).1 = Except.ok ⟨"web", "203.0.113.7", "US, Ashburn"⟩ ∧
    getSelectedContainerResultsAll [("A", "a"), ("B", "b"), ("C", "c")] worldC1 =
      Except.error
        "Failed to get status for container b: Failed to run command in container b: boom" :=
  ⟨rfl, rfl, rfl⟩

/-- Claim C1 (amended): the batch result is a row list exactly when
every container's own pipeline produced a row, in which case there is
exactly one row per container-map entry, in original map order, each row
being precisely its own pipeline's result (so rows are isolated from one
another); but a pipeline that throws (e.g. a throwing exec call) makes
the whole batch result an error, with no rows produced for any
container. -/
theorem claim_C1_amended (m : List (String × String)) (world : String → ContainerEnv)
    (rows : List StatusRow) :
    getSelectedContainerResultsAll m world = Except.ok rows ↔
      m.map (fun p => (getContainerStatus p.2 (world p.2)).1) = rows.map Except.ok := by
  unfold getSelectedContainerResultsAll
  rw [List.map_map]
  constructor
  · intro h
    exact collectAll_ok_imp _ _ h
  · intro h
    have h2 : List.map ((fun id => (getContainerStatus id (world id)).1) ∘ Prod.snd) m =
        rows.map Except.ok := h
    rw [h2]
    exact collectAll_map_ok rows

/-! ## Claim C2 -/

/-- Claim C2 (amended): when a container's inspect call fails, its
status resolution throws a wrapped error instead of producing a
"Retrieval failed" row, and in batch mode the failure is propagated:
the whole batch result is an error, never a row list. -/
theorem claim_C2_amended (containerId : String) (env : ContainerEnv) (e : String)
    (hid : containerId ≠ "") (hins : env.inspectResult = Except.error e) :
    (getContainerStatus containerId env).1 =
      Except.error ("Failed to get status for container " ++ containerId ++ ": " ++ e) ∧
    ∀ (m : List (String × String)) (world : String → ContainerEnv) (rows : List StatusRow),
      containerId ∈ m.map Prod.snd → world containerId = env →
      getSelectedContainerResultsAll m world ≠ Except.ok rows := by
  have hstat : (getContainerStatus containerId env).1 =
      Except.error ("Failed to get status for container " ++ containerId ++ ": " ++ e) := by
    simp [getContainerStatus, hid, hins]
  refine ⟨hstat, ?_⟩
  intro m world rows hmem hw hok
  unfold getSelectedContainerResultsAll at hok
  have hlist := collectAll_ok_imp _ _ hok
  have hmem2 : (getContainerStatus containerId (world containerId)).1 ∈
      (m.map Prod.snd).map (fun id => (getContainerStatus id (world id)).1) :=
    List.mem_map_of_mem _ hmem
  rw [hlist] at hmem2
  rw [hw, hstat] at hmem2
  rcases List.mem_map.mp hmem2 with ⟨r, _, hr⟩
  simp at hr

/-- The batch world for the C2 counterexample: container id "gone" is
the one whose inspect call fails. -/
def worldC2 : String → ContainerEnv := fun id => if id = "gone" then envGone else envWeb

/-- Counterexample to C2: a failed inspect does not produce a
"Retrieval failed" row — the status resolution throws, and a batch
containing that container rejects as a whole. -/
theorem claim_C2_counterexample :
    (getContainerStatus "gone" envGone).1 =
      Except.error "Failed to get status for container gone: no such container" ∧
    getSelectedContainerResultsAll [("web", "w"), ("db", "gone")] worldC2 =
      Except.error "Failed to get status for container gone: no such container" :=
  ⟨rfl, rfl⟩

/-- Witness for the amended C2 at a concrete failing inspect. -/
theorem claim_C2_witness :
    (getContainerStatus "g2" envGone).1 =
      Except.error "Failed to get status for container g2: no such container" :=
  (claim_C2_amended "g2" envGone "no such container" (by decide) rfl).1

/-! ## Claim C3 -/

/-- Claim C3 (amended): the exec result is accepted as the IP exactly
when the exit code equals 0 and the cleaned, trimmed output is a
nonempty string consisting solely of digits and dots — with no
constraint on the number of dots or on digit grouping; every other
outcome yields null. -/
theorem claim_C3_amended (containerId : String) (env : ContainerEnv) (d : InspectData)
    (raw : String) (code : Int) (hid : containerId ≠ "")
    (hins : env.inspectResult = Except.ok d) (hexec : env.execResult = Except.ok (raw, code)) :
    (getPublicIP containerId env).1 =
      Except.ok (if code = 0 ∧ structuralIPv4 (jsTrim (cleanOutput raw)) = true
                 then some (jsTrim (cleanOutput raw)) else none) := by
  by_cases hc : code = 0
  · by_cases hs : structuralIPv4 (jsTrim (cleanOutput raw)) = true
    · simp [getPublicIP, getContainerOsType, runCommand, hid, hins, hexec, hc, hs]
    · simp [getPublicIP, getContainerOsType, runCommand, hid, hins, hexec, hc, hs]
  · simp [getPublicIP, getContainerOsType, runCommand, hid, hins, hexec, hc]

/-- Counterexample to C3: output "1.2" has a single dot, not exactly
three, yet exit code 0 makes the resolver accept it as the IP. -/
theorem claim_C3_counterexample :
    (getPublicIP "api" envDotted).1 = Except.ok (some "1.2") ∧
    List.count '.' "1.2".data = 1 :=
  ⟨rfl, rfl⟩

/-- Witness for the amended C3 at the concrete outcome ("1.2", 0). -/
theorem claim_C3_witness :
    (getPublicIP "ap2" envDotted).1 = Except.ok (some "1.2") := by
  have h := claim_C3_amended "ap2" envDotted ⟨"/api", ⟨true, "running"⟩, some "linux", []⟩
    "1.2" 0 (by decide) rfl rfl
  exact h.trans rfl

/-! ## Claim C7 -/

/-- Claim C7 (amended): when the inspect succeeds, an absent OS hint
defaults the OS kind to "linux" (hence the non-Windows command); a hint
containing "win" case-insensitively selects the whitespace-tokenized
command, any other hint selects the ["sh", "-c", ...] wrapper; but when
the inspect fails, the OS-type lookup throws a wrapped error and the
public-IP resolver propagates it without choosing any command (no exec
call at all), rather than defaulting to `other`. -/
theorem claim_C7_amended (containerId : String) (env : ContainerEnv) (hid : containerId ≠ "") :
    (∀ e, env.inspectResult = Except.error e →
        getContainerOsType containerId env =
          (Except.error ("Failed to get OS type for container " ++ containerId ++ ": " ++ e),
           [Call.inspect]) ∧
        getPublicIP containerId env =
          (Except.error ("Failed to get OS type for container " ++ containerId ++ ": " ++ e),
           [Call.inspect])) ∧
    (∀ d, env.inspectResult = Except.ok d → d.Os = none →
        (getContainerOsType containerId env).1 = Except.ok "linux") ∧
    (∀ d os, env.inspectResult = Except.ok d → d.Os = some os →
        jsIncludes (jsToLower os) "win" = true →
        (getPublicIP containerId env).2 =
          [Call.inspect, Call.exec (jsSplitOnSpace curlCmdStr)]) ∧
    (∀ d os, env.inspectResult = Except.ok d → d.Os = some os →
        jsIncludes (jsToLower os) "win" = false →
        (getPublicIP containerId env).2 = [Call.inspect, Call.exec ["sh", "-c", curlCmdStr]]) := by
  refine ⟨?_, ?_, ?_, ?_⟩
  · intro e hins
    constructor
    · simp [getContainerOsType, hid, hins]
    · simp [getPublicIP, getContainerOsType, hid, hins]
  · intro d hins hos
    simp [getContainerOsType, hid, hins, hos]
  · intro d os hins hos hw
    have hlow : ¬ jsToLower os = "" := by
      intro h0
      rw [h0] at hw
      exact absurd hw (by decide)
    cases hex : env.execResult with
    | error e2 =>
      simp [getPublicIP, getContainerOsType, runCommand, hid, hins, hos, hlow, hw, hex]
    | ok p =>
      simp [getPublicIP, getContainerOsType, runCommand, hid, hins, hos, hlow, hw, hex]
  · intro d os hins hos hw
    by_cases hlow : jsToLower os = ""
    · cases hex : env.execResult with
      | error e2 =>
        simp [getPublicIP, getContainerOsType, runCommand, hid, hins, hos, hlow, hex,
          show jsIncludes "linux" "win" = false from by decide]
      | ok p =>
        simp [getPublicIP, getContainerOsType, runCommand, hid, hins, hos, hlow, hex,
          show jsIncludes "linux" "win" = false from by decide]
    · cases hex : env.execResult with
      | error e2 =>
        simp [getPublicIP, getContainerOsType, runCommand, hid, hins, hos, hlow, hw, hex]
      | ok p =>
        simp [getPublicIP, getContainerOsType, runCommand, hid, hins, hos, hlow, hw, hex]

/-- Counterexample to C7: on a failed inspect the OS-type lookup does
not default to `other` — it throws, the public-IP resolver rethrows,
and no command vector is ever chosen (the trace holds no exec call). -/
theorem claim_C7_counterexample :
    (getContainerOsType "w1" envGone).1 =
      Except.error "Failed to get OS type for container w1: no such container" ∧
    getPublicIP "w1" envGone =
      (Except.error "Failed to get OS type for container w1: no such container",
       [Call.inspect]) :=
  ⟨rfl, rfl⟩

/-- Witness for the amended C7: a Windows hint tokenizes the command, an
absent hint defaults to "linux", a Linux hint wraps in sh -c. -/
theorem claim_C7_witness :
    (getPublicIP "winid" envWin).2 = [Call.inspect, Call.exec (jsSplitOnSpace curlCmdStr)] ∧
    (getContainerOsType "tuxid" envNoOs).1 = Except.ok "linux" ∧
    (getPublicIP "webid" envWeb).2 = [Call.inspect, Call.exec ["sh", "-c", curlCmdStr]] := by
  refine ⟨?_, ?_, ?_⟩
  · exact (claim_C7_amended "winid" envWin (by decide)).2.2.1
      ⟨"/win", ⟨true, "running"⟩, some "Windows Server", []⟩ "Windows Server" rfl rfl (by decide)
  · exact (claim_C7_amended "tuxid" envNoOs (by decide)).2.1
      ⟨"/tux", ⟨true, "running"⟩, none, []⟩ rfl rfl
  · exact (claim_C7_amended "webid" envWeb (by decide)).2.2.2
      ⟨"/web", ⟨true, "running"⟩, some "linux", []⟩ "linux" rfl rfl (by decide)

/-! ## Claim C9 -/

/-- Claim C9: in every row produced by status resolution, the location
field is a real place (neither "Unknown" nor "Lookup Failed") only when
the ipOrStatus field passes the structural IPv4 check — the source's
(and the specification's) notion of a valid IPv4 string. -/
theorem claim_C9 (containerId : String) (env : ContainerEnv) (row : StatusRow)
    (hrow : (getContainerStatus containerId env).1 = Except.ok row)
    (hu : row.location ≠ "Unknown") (hl : row.location ≠ "Lookup Failed") :
    structuralIPv4 row.ipOrStatus = true := by
  obtain ⟨ins, ex, geo⟩ := env
  by_cases hid : containerId = ""
  · simp [getContainerStatus, hid] at hrow
  · cases ins with
    | error e => simp [getContainerStatus, hid] at hrow
    | ok d =>
      cases hr : d.State.Running with
      | false =>
        simp [getContainerStatus, hid, hr] at hrow
        subst hrow
        simp at hu
      | true =>
        cases ex with
        | error e =>
          simp [getContainerStatus, getPublicIP, getContainerOsType, runCommand, hid, hr]
            at hrow
        | ok p =>
          obtain ⟨raw, code⟩ := p
          by_cases hc : (code == 0 && structuralIPv4 (jsTrim (cleanOutput raw))) = true
          · have hc2 := hc
            simp only [Bool.and_eq_true] at hc2
            have hs : structuralIPv4 (jsTrim (cleanOutput raw)) = true := hc2.2
            have hne : jsTrim (cleanOutput raw) ≠ "" := structuralIPv4_ne_empty _ hs
            cases geo with
            | error e2 =>
              simp [getContainerStatus, getPublicIP, getContainerOsType, runCommand,
                getLocation, hid, hr, hc, hne] at hrow
              subst hrow
              simp at hl
            | ok r =>
              by_cases hf : r.status = "fail"
              · simp [getContainerStatus, getPublicIP, getContainerOsType, runCommand,
                  getLocation, hid, hr, hc, hne, hf] at hrow
                subst hrow
                simp at hu
              · simp [getContainerStatus, getPublicIP, getContainerOsType, runCommand,
                  getLocation, hid, hr, hc, hne, hf] at hrow
                subst hrow
                exact hs
          · simp [getContainerStatus, getPublicIP, getContainerOsType, runCommand, hid, hr,
              hc] at hrow
            subst hrow
            simp at hu

/-- Witness for C9: the healthy pipeline's row carries location
"US, Ashburn", and its ipOrStatus "203.0.113.7" indeed passes the
structural check. -/
theorem claim_C9_witness : structuralIPv4 "203.0.113.7" = true :=
  claim_C9 "webid" envWeb ⟨"web", "203.0.113.7", "US, Ashburn"⟩ rfl (by decide) (by decide)

/-! ## Claim C8 -/

theorem intercalate_go_nil (acc sep : String) : String.intercalate.go acc sep [] = acc := rfl

theorem portRow_fst (world : String → Except String InspectData) (p : String × String) :
    (portRow world p).1 = p.1 := by
  unfold portRow
  cases hg : getContainerPorts p.2 (world p.2) <;> simp

/-- Claim C8: in ports mode every container yields exactly one row (the
name column reproduces the map entries in order); a binding of a
container port to HostIp:HostPort renders as "HostIp:HostPort->port"; a
container with no bindings shows the literal "No ports exposed"; and a
per-container port-fetch error is rendered inline in that one row while
the rows of all other containers are unaffected. -/
theorem claim_C8 (entries : List (String × String))
    (world : String → Except String InspectData) :
    ((listContainerPorts entries world).map Prod.fst = entries.map Prod.fst) ∧
    (∀ name id d cp b, id ≠ "" → world id = Except.ok d → d.Ports = [(cp, some [b])] →
        portRow world (name, id) = (name, b.HostIp ++ ":" ++ b.HostPort ++ "->" ++ cp)) ∧
    (∀ name id d, id ≠ "" → world id = Except.ok d → d.Ports = [] →
        portRow world (name, id) = (name, "No ports exposed")) ∧
    (∀ pre post name id e, id ≠ "" → world id = Except.error e →
        listContainerPorts (pre ++ (name, id) :: post) world =
          listContainerPorts pre world ++
            (name, "Error retrieving ports (" ++
                ("Failed to get ports for container " ++ id ++ ": " ++ e) ++ ")") ::
              listContainerPorts post world) := by
  refine ⟨?_, ?_, ?_, ?_⟩
  · unfold listContainerPorts
    rw [List.map_map]
    have hfun : Prod.fst ∘ portRow world = Prod.fst :=
      funext fun p => portRow_fst world p
    rw [hfun]
  · intro name id d cp b hid hw hports
    have hne : b.HostIp ++ ":" ++ b.HostPort ++ "->" ++ cp ≠ "" := by
      intro h0
      have hdata := congrArg String.data h0
      simp [String.data_append] at hdata
    simp [portRow, getContainerPorts, hid, hw, hports, formatPortEntry, jsFilterBoolean, hne,
      String.intercalate, intercalate_go_nil]
  · intro name id d hid hw hports
    simp [portRow, getContainerPorts, hid, hw, hports, jsFilterBoolean]
  · intro pre post name id e hid he
    simp [listContainerPorts, List.map_append, List.map_cons, portRow, getContainerPorts,
      hid, he]

/-- The ports-mode world for the C8 witness: container "w1" exposes
80/tcp on 0.0.0.0:8080, every other id fails with "boom". -/
def portsWorldW : String → Except String InspectData := fun id =>
  if id = "w1" then
    Except.ok ⟨"/web", ⟨true, "running"⟩, none, [("80/tcp", some [⟨"0.0.0.0", "8080"⟩])]⟩
  else Except.error "boom"

/-- Witness for C8: the concrete binding renders as
"0.0.0.0:8080->80/tcp", and a failing container's row carries the
inline error text. -/
theorem claim_C8_witness :
    portRow portsWorldW ("web", "w1") = ("web", "0.0.0.0:8080->80/tcp") ∧
    listContainerPorts [("bad", "b1")] portsWorldW =
      [("bad", "Error retrieving ports (Failed to get ports for container b1: boom)")] := by
  constructor
  · exact (claim_C8 [] portsWorldW).2.1 "web" "w1"
      ⟨"/web", ⟨true, "running"⟩, none, [("80/tcp", some [⟨"0.0.0.0", "8080"⟩])]⟩
      "80/tcp" ⟨"0.0.0.0", "8080"⟩ (by decide) rfl rfl
  · exact (claim_C8 [] portsWorldW).2.2.2 [] [] "bad" "b1" "boom" (by decide) rfl

/-! ## Claim C10: the name→id map built by Object.fromEntries -/

theorem beq_false_of_ne {a b : String} (h : ¬ a = b) : (a == b) = false := by
  cases hb : (a == b) with
  | false => rfl
  | true => exact absurd (eq_of_beq hb) h

theorem lookup_cons_eq {k2 : String} (p : String × String) {m : List (String × String)}
    (h : k2 = p.1) : List.lookup k2 (p :: m) = some p.2 := by
  obtain ⟨a, b⟩ := p
  subst h
  simp [List.lookup]

theorem lookup_cons_ne {k2 : String} (p : String × String) {m : List (String × String)}
    (h : ¬ k2 = p.1) : List.lookup k2 (p :: m) = List.lookup k2 m := by
  obtain ⟨a, b⟩ := p
  simp only [List.lookup, beq_false_of_ne h]

theorem any_key_iff (m : List (String × String)) (k : String) :
    m.any (fun p => p.1 == k) = true ↔ k ∈ m.map Prod.fst := by
  simp [List.any_eq_true, List.mem_map]

theorem insertEntry_keys (m : List (String × String)) (k v : String) :
    (insertEntry m k v).map Prod.fst =
      if m.any (fun p => p.1 == k) then m.map Prod.fst else m.map Prod.fst ++ [k] := by
  unfold insertEntry
  by_cases h : m.any (fun p => p.1 == k) = true
  · rw [if_pos h, if_pos h, List.map_map]
    have hfun : (Prod.fst ∘ fun p : String × String => if p.1 == k then (k, v) else p) =
        Prod.fst := by
      funext p
      by_cases hp : p.1 = k
      · simp [Function.comp, hp]
      · simp [Function.comp, hp]
    rw [hfun]
  · rw [if_neg h, if_neg h, List.map_append]
    rfl

theorem insertEntry_length (m : List (String × String)) (k v : String) :
    (insertEntry m k v).length =
      if m.any (fun p => p.1 == k) then m.length else m.length + 1 := by
  unfold insertEntry
  by_cases h : m.any (fun p => p.1 == k) = true <;> simp [h]

theorem lookup_replace_self (m : List (String × String)) (k v : String)
    (hmem : k ∈ m.map Prod.fst) :
    (m.map (fun p => if p.1 == k then (k, v) else p)).lookup k = some v := by
  induction m with
  | nil => simp at hmem
  | cons p m ih =>
    by_cases hp : p.1 = k
    · have hr : (if p.1 == k then (k, v) else p) = (k, v) := by simp [hp]
      rw [List.map_cons, hr]
      exact lookup_cons_eq (k, v) rfl
    · have hr : (if p.1 == k then (k, v) else p) = p := by simp [hp]
      have hmem2 : k ∈ m.map Prod.fst := by
        rw [List.map_cons] at hmem
        rcases List.mem_cons.mp hmem with he | hm
        · exact absurd he.symm hp
        · exact hm
      rw [List.map_cons, hr, lookup_cons_ne p (fun he => hp he.symm)]
      exact ih hmem2

theorem lookup_replace_ne (m : List (String × String)) (k v k2 : String) (hne : k2 ≠ k) :
    (m.map (fun p => if p.1 == k then (k, v) else p)).lookup k2 = m.lookup k2 := by
  induction m with
  | nil => rfl
  | cons p m ih =>
    by_cases hp : p.1 = k
    · have hr : (if p.1 == k then (k, v) else p) = (k, v) := by simp [hp]
      rw [List.map_cons, hr, lookup_cons_ne (k, v) hne,
        lookup_cons_ne p (fun he => hne (he.trans hp)), ih]
    · have hr : (if p.1 == k then (k, v) else p) = p := by simp [hp]
      by_cases hp2 : k2 = p.1
      · rw [List.map_cons, hr, lookup_cons_eq p hp2, lookup_cons_eq p hp2]
      · rw [List.map_cons, hr, lookup_cons_ne p hp2, lookup_cons_ne p hp2, ih]

theorem lookup_append_new (m : List (String × String)) (k v : String)
    (habs : ¬ k ∈ m.map Prod.fst) (k2 : String) :
    (m ++ [(k, v)]).lookup k2 = if k2 = k then some v else m.lookup k2 := by
  induction m with
  | nil =>
    by_cases h : k2 = k
    · rw [if_pos h, List.nil_append]
      exact lookup_cons_eq (k, v) h
    · rw [if_neg h, List.nil_append, lookup_cons_ne (k, v) h]
  | cons p m ih =>
    have hpk : ¬ p.1 = k := by
      intro he
      exact habs (by rw [List.map_cons, ← he]; exact List.mem_cons_self p.1 _)
    have habs2 : ¬ k ∈ m.map Prod.fst := by
      intro hm
      exact habs (by rw [List.map_cons]; exact List.mem_cons_of_mem _ hm)
    by_cases hp2 : k2 = p.1
    · have hk2 : ¬ k2 = k := fun he => hpk (hp2.symm.trans he)
      rw [List.cons_append, lookup_cons_eq p hp2, if_neg hk2, lookup_cons_eq p hp2]
    · rw [List.cons_append, lookup_cons_ne p hp2, lookup_cons_ne p hp2]
      exact ih habs2

theorem insertEntry_lookup (m : List (String × String)) (k v k2 : String) :
    (insertEntry m k v).lookup k2 = if k2 = k then some v else m.lookup k2 := by
  unfold insertEntry
  by_cases hany : m.any (fun p => p.1 == k) = true
  · rw [if_pos hany]
    by_cases hk : k2 = k
    · subst hk
      rw [if_pos rfl]
      exact lookup_replace_self m k2 v ((any_key_iff m k2).mp hany)
    · rw [if_neg hk]
      exact lookup_replace_ne m k v k2 hk
  · rw [if_neg hany]
    exact lookup_append_new m k v (fun hm => hany ((any_key_iff m k).mpr hm)) k2

theorem jsFromEntries_append_single (l : List (String × String)) (k v : String) :
    jsFromEntries (l ++ [(k, v)]) = insertEntry (jsFromEntries l) k v := by
  simp [jsFromEntries, List.foldl_append]

theorem jsFromEntries_lookup (l : List (String × String)) (k : String) :
    (jsFromEntries l).lookup k =
      (l.reverse.find? (fun p => p.1 == k)).map Prod.snd := by
  induction l using List.reverseRecOn with
  | nil => rfl
  | append_singleton l p ih =>
    obtain ⟨a, b⟩ := p
    have hrev : (l ++ [(a, b)]).reverse = (a, b) :: l.reverse := by simp
    rw [jsFromEntries_append_single, insertEntry_lookup, hrev]
    by_cases hk : k = a
    · subst hk
      rw [if_pos rfl]
      simp [List.find?]
    · rw [if_neg hk]
      have hb2 : (a == k) = false := beq_false_of_ne (fun he => hk he.symm)
      simp [List.find?, hb2, ih]

theorem jsFromEntries_keys_mem (l : List (String × String)) (k : String) :
    k ∈ (jsFromEntries l).map Prod.fst ↔ k ∈ l.map Prod.fst := by
  induction l using List.reverseRecOn generalizing k with
  | nil => simp [jsFromEntries]
  | append_singleton l p ih =>
    obtain ⟨a, b⟩ := p
    rw [jsFromEntries_append_single, insertEntry_keys]
    by_cases h : (jsFromEntries l).any (fun q => q.1 == a) = true
    · have ha : a ∈ l.map Prod.fst := (ih a).mp ((any_key_iff _ a).mp h)
      rw [if_pos h, List.map_append]
      simp only [List.map_cons, List.map_nil, List.mem_append, List.mem_singleton]
      constructor
      · intro hkm
        exact Or.inl ((ih k).mp hkm)
      · rintro (hkm | rfl)
        · exact (ih k).mpr hkm
        · exact (ih k).mpr ha
    · rw [if_neg h, List.map_append]
      simp only [List.map_cons, List.map_nil, List.mem_append, List.mem_singleton]
      constructor
      · rintro (hkm | rfl)
        · exact Or.inl ((ih k).mp hkm)
        · exact Or.inr rfl
      · rintro (hkm | rfl)
        · exact Or.inl ((ih k).mpr hkm)
        · exact Or.inr rfl

theorem jsFromEntries_keys_nodup (l : List (String × String)) :
    ((jsFromEntries l).map Prod.fst).Nodup := by
  induction l using List.reverseRecOn with
  | nil => simp [jsFromEntries]
  | append_singleton l p ih =>
    obtain ⟨a, b⟩ := p
    rw [jsFromEntries_append_single, insertEntry_keys]
    by_cases h : (jsFromEntries l).any (fun q => q.1 == a) = true
    · rw [if_pos h]
      exact ih
    · rw [if_neg h]
      have hnotmem : a ∉ (jsFromEntries l).map Prod.fst :=
        fun hmem => h ((any_key_iff _ a).mpr hmem)
      rw [List.nodup_append]
      refine ⟨ih, List.nodup_singleton a, ?_⟩
      intro x hx hx2
      rw [List.mem_singleton] at hx2
      subst hx2
      exact hnotmem hx


theorem jsFromEntries_length (l : List (String × String)) :
    (jsFromEntries l).length ≤ l.length ∧
      (¬ (l.map Prod.fst).Nodup → (jsFromEntries l).length < l.length) := by
  induction l using List.reverseRecOn with
  | nil => simp [jsFromEntries]
  | append_singleton l p ih =>
    obtain ⟨a, b⟩ := p
    obtain ⟨ih1, ih2⟩ := ih
    rw [jsFromEntries_append_single]
    constructor
    · rw [insertEntry_length]
      split
      · simp only [List.length_append, List.length_cons, List.length_nil]
        omega
      · simp only [List.length_append, List.length_cons, List.length_nil]
        omega
    · intro hnd
      rw [insertEntry_length]
      have hkeys : ¬ (l.map Prod.fst).Nodup ∨ a ∈ l.map Prod.fst := by
        by_contra hcon
        push_neg at hcon
        obtain ⟨h1, h2⟩ := hcon
        apply hnd
        rw [List.map_append, List.nodup_append]
        refine ⟨h1, by simp, ?_⟩
        intro x hx hx2
        simp only [List.map_cons, List.map_nil, List.mem_singleton] at hx2
        subst hx2
        exact h2 hx
      rcases hkeys with h | h
      · have hlt := ih2 h
        split
        · simp only [List.length_append, List.length_cons, List.length_nil]
          omega
        · simp only [List.length_append, List.length_cons, List.length_nil]
          omega
      · have hany : (jsFromEntries l).any (fun q => q.1 == a) = true :=
          (any_key_iff _ _).mpr ((jsFromEntries_keys_mem l a).mpr h)
        rw [if_pos hany]
        simp only [List.length_append, List.length_cons, List.length_nil]
        omega

/-- Claim C10: when two listed containers normalize to the same display
name, the name→id map keeps only the later container's id (lookup
returns the id of the LAST listing entry with that normalized name);
the map's keys are distinct, so "All" mode resolves one row per
distinct normalized name; and the map — hence any successful batch — is
strictly shorter than the container listing. -/
theorem claim_C10 (containers : List ContainerListing)
    (hdup : ¬ (containers.map (fun c => normalizeName c.Names)).Nodup) :
    (getContainerMap containers).length < containers.length ∧
    ((getContainerMap containers).map Prod.fst).Nodup ∧
    (∀ k, (getContainerMap containers).lookup k =
        (containers.reverse.find? (fun c => normalizeName c.Names == k)).map
          ContainerListing.Id) ∧
    (∀ world rows,
        getSelectedContainerResultsAll (getContainerMap containers) world = Except.ok rows →
        rows.length = (getContainerMap containers).length) := by
  refine ⟨?_, jsFromEntries_keys_nodup _, ?_, ?_⟩
  · have hkeys : (containers.map (fun c => (normalizeName c.Names, c.Id))).map Prod.fst =
        containers.map (fun c => normalizeName c.Names) := by
      rw [List.map_map]
      rfl
    have h := (jsFromEntries_length
      (containers.map (fun c => (normalizeName c.Names, c.Id)))).2 (by rw [hkeys]; exact hdup)
    unfold getContainerMap
    simpa [List.length_map] using h
  · intro k
    unfold getContainerMap
    rw [jsFromEntries_lookup, ← List.map_reverse, List.find?_map, Option.map_map]
    rfl
  · intro world rows hok
    unfold getSelectedContainerResultsAll at hok
    have hlist := collectAll_ok_imp _ _ hok
    have hlen := congrArg List.length hlist
    simpa [List.length_map] using hlen.symm

/-- Two listed containers that both normalize to "web". -/
def dupContainers : List ContainerListing :=
  [⟨["/web"], "id1"⟩, ⟨["/web"], "id2"⟩]

/-- Witness for C10: with two containers both named "web", the map has
one entry (fewer than the two containers) and resolves "web" to the
later id. -/
theorem claim_C10_witness :
    (getContainerMap dupContainers).length < dupContainers.length ∧
    (getContainerMap dupContainers).lookup "web" = some "id2" := by
  have h := claim_C10 dupContainers (by decide)
  exact ⟨h.1, (h.2.2.1 "web").trans rfl⟩

end DockerIP
